import Mathlib

/-!
Verification of the algorithmic core of the Aether gateway:
the usage-field extractor (`src/api/handlers/base/utils.py`),
the header-rule engine (`src/core/header_rules.py`), and
the model-resolution cache (`src/services/cache/model_cache.py`).

The Python code is shallowly embedded: Python/JSON values become `PyVal`,
Python dicts become insertion-ordered association lists, raised exceptions
become `Except.error`, and the cache plus the read-only datastore are passed
explicitly as state.
-/

namespace Aether

/-- A Python/JSON value, as the embedded code sees it: the payloads handled by
the extractor, the header-rule parser and the cache are built from these
constructors only. -/
inductive PyVal where
  | none : PyVal
  | bool : Bool → PyVal
  | int : Int → PyVal
  | str : String → PyVal
  | list : List PyVal → PyVal
  | dict : List (String × PyVal) → PyVal
deriving Repr, Inhabited

/-- Python dict lookup `d.get(k)` over an insertion-ordered association list
(first binding wins; the embedded code never builds duplicate keys). -/
def pyGet (d : List (String × PyVal)) (k : String) : Option PyVal :=
  (d.find? (fun p => p.1 == k)).map (fun p => p.2)

/-- Python `d.get(k, default)`. -/
def pyGetD (d : List (String × PyVal)) (k : String) (dflt : PyVal) : PyVal :=
  (pyGet d k).getD dflt

/-- Python `k in d` membership test on a dict. -/
def pyContains (d : List (String × PyVal)) (k : String) : Bool :=
  d.any (fun p => p.1 == k)

/-- Python truthiness of a value (`if x:`). -/
def PyVal.truthy : PyVal → Bool
  | .none => false
  | .bool b => b
  | .int n => n != 0
  | .str s => !s.isEmpty
  | .list xs => !xs.isEmpty
  | .dict xs => !xs.isEmpty

/-- Python `s.strip()`: drop leading and trailing whitespace (the whitespace
set is `Char.isWhitespace`; Python's set additionally has some exotic code
points no caller passes). -/
def pyStrip (s : String) : String :=
  ⟨((s.data.dropWhile Char.isWhitespace).reverse.dropWhile Char.isWhitespace).reverse⟩

/-- Python `s.lower()` on ASCII text, modelling its use on header names and
cache keys (which are ASCII; other code points pass through unchanged). -/
def asciiLower (s : String) : String :=
  ⟨s.data.map (fun c =>
    if 65 ≤ c.toNat && c.toNat ≤ 90 then Char.ofNat (c.toNat + 32) else c)⟩

/-- Python `int(x)` coercion: ints pass through, bools map to 0/1, numeric
strings parse (Python strips surrounding whitespace), anything else raises
`TypeError`/`ValueError`, modelled as `Except.error`. -/
def pyToInt : PyVal → Except String Int
  | .int n => .ok n
  | .bool b => .ok (if b then 1 else 0)
  | .str s =>
    match (pyStrip s).toInt? with
    | some n => .ok n
    | Option.none => .error ("invalid literal for int: " ++ s)
  | _ => .error "int() argument must be numeric"

/-- Embedding of `extract_cache_creation_tokens` (src/api/handlers/base/utils.py,
lines 10-92): three-tier precedence over the usage payload. A failed `int()`
coercion propagates as an error, matching the uncaught Python exception. -/
def extract_cache_creation_tokens (usage : List (String × PyVal)) :
    Except String Int := do
  -- 1. nested format: usage["cache_creation"] is a dict
  match pyGet usage "cache_creation" with
  | some (.dict cc) =>
    let cache5m ← pyToInt (pyGetD cc "ephemeral_5m_input_tokens" (.int 0))
    let cache1h ← pyToInt (pyGetD cc "ephemeral_1h_input_tokens" (.int 0))
    let total := cache5m + cache1h
    if total > 0 then
      return total
    else
      -- nested present but zero: fall back to the legacy field
      let oldFormat ← pyToInt (pyGetD usage "cache_creation_input_tokens" (.int 0))
      if oldFormat > 0 then
        return oldFormat
      else
        return 0
  | _ =>
    -- 2. flat new format, triggered by key presence
    let hasFlatFormat :=
      pyContains usage "claude_cache_creation_5_m_tokens" ||
      pyContains usage "claude_cache_creation_1_h_tokens"
    if hasFlatFormat then
      let cache5m ← pyToInt (pyGetD usage "claude_cache_creation_5_m_tokens" (.int 0))
      let cache1h ← pyToInt (pyGetD usage "claude_cache_creation_1_h_tokens" (.int 0))
      let total := cache5m + cache1h
      if total > 0 then
        return total
      else
        let oldFormat ← pyToInt (pyGetD usage "cache_creation_input_tokens" (.int 0))
        if oldFormat > 0 then
          return oldFormat
        else
          return 0
    else
      -- 3. legacy format only
      let oldFormat ← pyToInt (pyGetD usage "cache_creation_input_tokens" (.int 0))
      return oldFormat

/-- C5: For every usage mapping where `usage.cache_creation` is a mapping whose
`ephemeral_5m_input_tokens` plus `ephemeral_1h_input_tokens` sum is strictly
positive, `extract_cache_creation_tokens` returns that sum, ignoring
`claude_cache_creation_5_m_tokens`, `claude_cache_creation_1_h_tokens` and
`cache_creation_input_tokens` even when they are present (the conclusion does
not depend on any other field of `usage`). -/
theorem extract_nested_positive_sum_wins
    (usage cc : List (String × PyVal)) (a b : Int)
    (hcc : pyGet usage "cache_creation" = some (.dict cc))
    (ha : pyToInt (pyGetD cc "ephemeral_5m_input_tokens" (.int 0)) = .ok a)
    (hb : pyToInt (pyGetD cc "ephemeral_1h_input_tokens" (.int 0)) = .ok b)
    (hpos : 0 < a + b) :
    extract_cache_creation_tokens usage = .ok (a + b) := by
  simp [extract_cache_creation_tokens, hcc, ha, hb, hpos, Bind.bind, Except.bind,
    pure, Except.pure]

/-- Concrete usage payload from the spec: nested 100+200 with flat 999/888 and
legacy 777. -/
def c5Usage : List (String × PyVal) :=
  [("cache_creation", .dict [("ephemeral_5m_input_tokens", .int 100),
                             ("ephemeral_1h_input_tokens", .int 200)]),
   ("claude_cache_creation_5_m_tokens", .int 999),
   ("claude_cache_creation_1_h_tokens", .int 888),
   ("cache_creation_input_tokens", .int 777)]

/-- C5 witness: the spec example evaluates to 300, via the theorem. -/
theorem extract_nested_positive_sum_wins_witness :
    extract_cache_creation_tokens c5Usage = .ok 300 := by
  have h := extract_nested_positive_sum_wins c5Usage
    [("ephemeral_5m_input_tokens", .int 100), ("ephemeral_1h_input_tokens", .int 200)]
    100 200 rfl rfl rfl (by decide)
  simpa using h

/-- Usage payload whose nested tier sums to zero while the legacy field holds
a negative integer. -/
def c6NegUsage : List (String × PyVal) :=
  [("cache_creation", .dict []), ("cache_creation_input_tokens", .int (-5))]

/-- C6 counterexample: the claim says the legacy field is returned verbatim,
"whatever integer that legacy field holds", once the nested sum is not
strictly positive. On a legacy value of -5 the code returns 0, not -5: the
fall-through gates on `old_format > 0` (utils.py line 51) and otherwise
returns 0. -/
theorem extract_legacy_not_verbatim_counterexample :
    extract_cache_creation_tokens c6NegUsage = .ok 0 ∧
    (Except.ok 0 : Except String Int) ≠ .ok (-5) := by
  exact ⟨rfl, by simp⟩

/-- C6 amended: when `usage.cache_creation` is a mapping whose ephemeral sum is
not strictly positive, the extractor returns the legacy
`cache_creation_input_tokens` value if that value is strictly positive and 0
otherwise — i.e. the legacy value verbatim whenever it is nonnegative. -/
theorem extract_nested_zero_falls_back_to_legacy
    (usage cc : List (String × PyVal)) (a b l : Int)
    (hcc : pyGet usage "cache_creation" = some (.dict cc))
    (ha : pyToInt (pyGetD cc "ephemeral_5m_input_tokens" (.int 0)) = .ok a)
    (hb : pyToInt (pyGetD cc "ephemeral_1h_input_tokens" (.int 0)) = .ok b)
    (hnpos : a + b ≤ 0)
    (hl : pyToInt (pyGetD usage "cache_creation_input_tokens" (.int 0)) = .ok l) :
    extract_cache_creation_tokens usage = .ok (if 0 < l then l else 0) := by
  have hcond : ¬ (0 < a + b) := not_lt.mpr hnpos
  by_cases hL : 0 < l
  · simp [extract_cache_creation_tokens, hcc, ha, hb, hcond, hl, hL, Bind.bind,
      Except.bind, pure, Except.pure]
  · simp [extract_cache_creation_tokens, hcc, ha, hb, hcond, hl, hL, Bind.bind,
      Except.bind, pure, Except.pure]

/-- Concrete usage payload from the spec: nested zeros with legacy 549. -/
def c6Usage : List (String × PyVal) :=
  [("cache_creation", .dict [("ephemeral_5m_input_tokens", .int 0),
                             ("ephemeral_1h_input_tokens", .int 0)]),
   ("cache_creation_input_tokens", .int 549)]

/-- C6 witness: the spec example with nested zeros and legacy 549 returns 549,
via the amended theorem. -/
theorem extract_nested_zero_falls_back_to_legacy_witness :
    extract_cache_creation_tokens c6Usage = .ok 549 := by
  have h := extract_nested_zero_falls_back_to_legacy c6Usage
    [("ephemeral_5m_input_tokens", .int 0), ("ephemeral_1h_input_tokens", .int 0)]
    0 0 549 rfl rfl rfl (by decide) rfl
  simpa using h

/-! ## Header rule engine (src/core/header_rules.py) -/

/-- Abstraction of the two operations of Python's `re` module the engine calls:
`compile` reports whether a pattern is a valid regular expression (`re.error`
modelled as `Except.error`), and `sub pattern repl input caseSensitive` is
`re.sub(pattern, repl, input, flags)` (with `re.IGNORECASE` when the flag is
false); an invalid pattern makes `sub` fail for every input. The claims only
constrain whether concrete patterns compile, so the engine is a parameter of
the embedding. -/
structure RegexEngine where
  compile : String → Except String Unit
  sub : String → String → String → Bool → Except String String

/-- Engine used for concrete inputs whose patterns are invalid: every pattern
fails to compile, as for instance "[" does under Python. -/
def noRegexEngine : RegexEngine where
  compile := fun _ => .error "re.error"
  sub := fun _ _ _ _ => .error "re.error"

/-- Pydantic model `ReplaceValueRule` (header_rules.py lines 24-41). -/
structure ReplaceValueRule where
  search : String
  replace : String
  regex : Bool
  case_sensitive : Bool
deriving Repr, DecidableEq

/-- Required pydantic `str` field of a dict input. -/
def reqStrField (d : List (String × PyVal)) (k : String) : Except String String :=
  match pyGet d k with
  | some (.str s) => .ok s
  | some _ => .error ("Input should be a valid string: " ++ k)
  | Option.none => .error ("Field required: " ++ k)

/-- Pydantic `bool` field with a default (the embedded callers only ever pass
booleans, so lax coercions from 0/1 or "true" strings are not modelled). -/
def boolFieldD (d : List (String × PyVal)) (k : String) (dflt : Bool) :
    Except String Bool :=
  match pyGet d k with
  | some (.bool b) => .ok b
  | some _ => .error ("Input should be a valid boolean: " ++ k)
  | Option.none => .ok dflt

/-- Validation of `ReplaceValueRule(**d)`. The model's `validate_search` field
validator (lines 31-41) reads `info.data.get("regex", False)`, but pydantic
validates fields in declaration order and `search` precedes `regex`, so
`info.data` never holds `regex` at that point and the `re.compile` check is
unreachable: construction succeeds even when `search` is an invalid pattern
and `regex` is true (behaviour verified against pydantic 2.10). Extra keys are
ignored. -/
def ReplaceValueRule.parse (d : List (String × PyVal)) :
    Except String ReplaceValueRule := do
  let search ← reqStrField d "search"
  let rep ← reqStrField d "replace"
  let regex ← boolFieldD d "regex" false
  let cs ← boolFieldD d "case_sensitive" true
  .ok ⟨search, rep, regex, cs⟩

/-- A parsed `replace_value` entry. Pydantic's smart union
`Union[ReplaceValueRule, Dict[str, Any]]` keeps the model when the dict
validates as one and otherwise falls back to the raw dict (behaviour verified
against pydantic 2.10). -/
inductive RVEntry where
  | rule : ReplaceValueRule → RVEntry
  | raw : List (String × PyVal) → RVEntry
deriving Repr

/-- Smart-union validation of one `replace_value` entry. -/
def RVEntry.parse : PyVal → Except String RVEntry
  | .dict d =>
    match ReplaceValueRule.parse d with
    | .ok r => .ok (.rule r)
    | .error _ => .ok (.raw d)
  | _ => .error "Input should be a valid dictionary"

/-- Pydantic model `HeaderRules` (lines 44-60), with union entries parsed. -/
structure HeaderRules where
  add : Option (List (String × String))
  remove : Option (List String)
  replace_name : Option (List (String × String))
  replace_value : Option (List (String × RVEntry))
deriving Repr, Inhabited

/-- Pydantic `Dict[str, str]` validation of a value. -/
def parseStrDict : PyVal → Except String (List (String × String))
  | .dict d => d.mapM (fun p =>
      match p.2 with
      | .str s => Except.ok (p.1, s)
      | _ => Except.error ("Input should be a valid string: " ++ p.1))
  | _ => .error "Input should be a valid dictionary"

/-- Pydantic `List[str]` validation of a value. -/
def parseStrList : PyVal → Except String (List String)
  | .list xs => xs.mapM (fun v =>
      match v with
      | .str s => Except.ok s
      | _ => Except.error "Input should be a valid string")
  | _ => .error "Input should be a valid list"

/-- Pydantic `Optional[...]` field: absent or null parses to `none`. -/
def optField {α : Type} (d : List (String × PyVal)) (k : String)
    (f : PyVal → Except String α) : Except String (Option α) :=
  match pyGet d k with
  | Option.none => .ok Option.none
  | some PyVal.none => .ok Option.none
  | some v => (f v).map some

/-- Validation of `HeaderRules(**d)` (extra keys ignored, pydantic default). -/
def HeaderRules.parse (d : List (String × PyVal)) : Except String HeaderRules := do
  let add ← optField d "add" parseStrDict
  let remove ← optField d "remove" parseStrList
  let rn ← optField d "replace_name" parseStrDict
  let rv ← optField d "replace_value" (fun v =>
    match v with
    | .dict entries => entries.mapM (fun p => (RVEntry.parse p.2).map (fun e => (p.1, e)))
    | _ => .error "Input should be a valid dictionary")
  .ok ⟨add, remove, rn, rv⟩

/-- `HeaderRules.is_empty` (lines 53-60): all four fields falsy. -/
def HeaderRules.is_empty (hr : HeaderRules) : Bool :=
  (match hr.add with | Option.none => true | some l => l.isEmpty) &&
  (match hr.remove with | Option.none => true | some l => l.isEmpty) &&
  (match hr.replace_name with | Option.none => true | some l => l.isEmpty) &&
  (match hr.replace_value with | Option.none => true | some l => l.isEmpty)

/-- Request headers: a Python `str → str` dict in insertion order. -/
abbrev Headers := List (String × String)

/-- Python dict lookup on headers. -/
def hLookup (h : Headers) (k : String) : Option String :=
  (h.find? (fun p => p.1 == k)).map (fun p => p.2)

/-- Python `k in h` on headers. -/
def hContains (h : Headers) (k : String) : Bool :=
  h.any (fun p => p.1 == k)

/-- Python dict assignment `h[k] = v`: updates the binding of `k` in place,
else appends at the end. -/
def hSet : Headers → String → String → Headers
  | [], k, v => [(k, v)]
  | (k', v') :: t, k, v =>
    if k' == k then (k, v) :: t else (k', v') :: hSet t k v

/-- Python `h.pop(k)` key removal (first binding of `k`). -/
def hEraseKey : Headers → String → Headers
  | [], _ => []
  | (k', v') :: t, k => if k' == k then t else (k', v') :: hEraseKey t k

/-- First header whose name matches `name` case-insensitively
(`key.lower() == name.lower()`). -/
def hFindCI (h : Headers) (name : String) : Option (String × String) :=
  h.find? (fun p => asciiLower p.1 == asciiLower name)

/-- Case-insensitive prefix test on character lists (`Char.toLower` models
`str.lower()`). -/
def ciStartsWith : List Char → List Char → Bool
  | [], _ => true
  | _ :: _, [] => false
  | p :: ps, c :: cs => (p.toLower == c.toLower) && ciStartsWith ps cs

/-- Fuel-driven case-insensitive replace-all: the behaviour of
`re.compile(re.escape(search), re.IGNORECASE).sub(replace, s)` for a
non-empty literal `search` (the empty-pattern edge of `re.sub` is not
modelled; no claim and no caller in this repository exercises it). -/
def replaceCIAux (pat rep : List Char) : Nat → List Char → List Char
  | 0, s => s
  | _ + 1, [] => []
  | fuel + 1, c :: rest =>
    if pat ≠ [] && ciStartsWith pat (c :: rest) then
      rep ++ replaceCIAux pat rep fuel ((c :: rest).drop pat.length)
    else
      c :: replaceCIAux pat rep fuel rest

/-- Case-insensitive literal replace-all on strings. -/
def strReplaceAllCI (s pat rep : String) : String :=
  ⟨replaceCIAux pat.data rep.data s.data.length s.data⟩

/-- Embedding of `_apply_replace_value` (lines 149-176): a regex substitution
failure — in particular an invalid pattern — is caught and leaves the value
untouched; otherwise literal `str.replace`, or escaped case-insensitive
substitution. -/
def apply_replace_value (engine : RegexEngine) (original : String)
    (rule : ReplaceValueRule) : String :=
  if rule.regex then
    match engine.sub rule.search rule.replace original rule.case_sensitive with
    | .ok s => s
    | .error _ => original
  else
    if rule.case_sensitive then
      original.replace rule.search rule.replace
    else
      strReplaceAllCI original rule.search rule.replace

/-- Step 1 of `apply_header_rules` (lines 105-110): delete every header whose
name matches case-insensitively. -/
def removeStep (h : Headers) (name : String) : Headers :=
  h.filter (fun p => asciiLower p.1 != asciiLower name)

/-- Step 2 (lines 113-120): pop the first case-insensitive match of `old` and
re-insert its value under `new` — Python dict assignment, which silently
overwrites an existing `new` binding in place. -/
def replaceNameStep (h : Headers) (old new : String) : Headers :=
  match hFindCI h old with
  | Option.none => h
  | some (k, v) => hSet (hEraseKey h k) new v

/-- Step 3 body (lines 124-137) for one `replace_value` entry: on the first
case-insensitive match, a raw-dict union entry is re-validated by
`ReplaceValueRule(**value_rule)` at line 130 — which sits outside the
try/except of lines 81-96, so a validation error there propagates out of
`apply_header_rules`. -/
def replaceValueStep (engine : RegexEngine) (h : Headers)
    (name : String) (entry : RVEntry) : Except String Headers :=
  match hFindCI h name with
  | Option.none => .ok h
  | some (k, v) => do
    let rule ← match entry with
      | RVEntry.rule r => Except.ok r
      | RVEntry.raw d => ReplaceValueRule.parse d
    .ok (hSet h k (apply_replace_value engine v rule))

/-- Step 4 (lines 140-144): add only when the exact (case-sensitive) name is
absent; never overwrites. -/
def addStep (h : Headers) (k v : String) : Headers :=
  if hContains h k then h else h ++ [(k, v)]

/-- Steps 1-4 of `apply_header_rules` over parsed rules (lines 101-146). -/
def applyParsedRules (engine : RegexEngine) (headers : Headers)
    (hr : HeaderRules) : Except String Headers := do
  let r1 := match hr.remove with
    | Option.none => headers
    | some ks => ks.foldl removeStep headers
  let r2 := match hr.replace_name with
    | Option.none => r1
    | some ps => ps.foldl (fun acc p => replaceNameStep acc p.1 p.2) r1
  let r3 ← match hr.replace_value with
    | Option.none => Except.ok r2
    | some es => es.foldlM (fun acc e => replaceValueStep engine acc e.1 e.2) r2
  let r4 := match hr.add with
    | Option.none => Except.ok r3
    | some adds => Except.ok (adds.foldl (fun acc p => addStep acc p.1 p.2) r3)
  r4

/-- The four structural keys of the new rules format (line 84). -/
def structuralKeys : List String := ["add", "remove", "replace_name", "replace_value"]

/-- Embedding of `apply_header_rules` (lines 63-146). `rules` is the raw
`Optional[Dict[str, Any]]` argument: a falsy value returns the input
unchanged; a parse failure inside the try of lines 81-96 is caught and
returns the input; a non-dict truthy value builds the empty `HeaderRules()`
(line 91). Rule execution itself may raise (see `replaceValueStep`), which
propagates to the caller as `Except.error`. -/
def apply_header_rules (engine : RegexEngine) (headers : Headers)
    (rules : Option PyVal) : Except String Headers :=
  match rules with
  | Option.none => .ok headers
  | some rv =>
    if !rv.truthy then .ok headers
    else
      let parsed : Except String HeaderRules :=
        match rv with
        | .dict d =>
          if structuralKeys.any (fun k => pyContains d k) then
            HeaderRules.parse d
          else
            -- legacy flat map: HeaderRules(add=rules)
            (parseStrDict (.dict d)).map
              (fun m => ⟨some m, Option.none, Option.none, Option.none⟩)
        | _ => .ok ⟨Option.none, Option.none, Option.none, Option.none⟩
      match parsed with
      | .error _ => .ok headers
      | .ok hr =>
        if hr.is_empty then .ok headers
        else applyParsedRules engine headers hr

/-- Regex check loop of `validate_header_rules` (lines 194-201): only entries
pydantic kept as `ReplaceValueRule` instances are examined — raw-dict entries
are skipped by the `isinstance` test — and the first failure is returned.
Python's message quotes the header name; the quotes are elided here. -/
def validateRVEntries (engine : RegexEngine) :
    List (String × RVEntry) → Bool × Option String
  | [] => (true, Option.none)
  | (name, RVEntry.rule r) :: rest =>
    if r.regex then
      match engine.compile r.search with
      | .error e => (false, some ("Invalid regex in " ++ name ++ ": " ++ e))
      | .ok _ => validateRVEntries engine rest
    else validateRVEntries engine rest
  | (_, RVEntry.raw _) :: rest => validateRVEntries engine rest

/-- Embedding of `validate_header_rules` (lines 179-205): structural parse via
`HeaderRules(**rules)`, failures returned as `(False, message)`, then the
regex check loop over `replace_value`. -/
def validate_header_rules (engine : RegexEngine)
    (rules : List (String × PyVal)) : Bool × Option String :=
  match HeaderRules.parse rules with
  | .error e => (false, some e)
  | .ok hr =>
    match hr.replace_value with
    | Option.none => (true, Option.none)
    | some entries => validateRVEntries engine entries

/-! ### Helper lemmas on header maps -/

/-- The entry found by a case-insensitive search is a member. -/
theorem hFindCI_mem {h : Headers} {name k v : String}
    (hf : hFindCI h name = some (k, v)) : (k, v) ∈ h :=
  List.mem_of_find?_eq_some hf

/-- The entry found by a case-insensitive search matches the query. -/
theorem hFindCI_matches {h : Headers} {name k v : String}
    (hf : hFindCI h name = some (k, v)) : asciiLower k = asciiLower name := by
  have := List.find?_some hf
  simpa using this

/-- A found entry yields key membership. -/
theorem hContains_of_hFindCI {h : Headers} {name k v : String}
    (hf : hFindCI h name = some (k, v)) : hContains h k = true := by
  have hm := hFindCI_mem hf
  exact List.any_eq_true.mpr ⟨(k, v), hm, by simp⟩

/-- A successful lookup yields key membership. -/
theorem hContains_of_hLookup {h : Headers} {k w : String}
    (hl : hLookup h k = some w) : hContains h k = true := by
  unfold hLookup at hl
  cases hfind : h.find? (fun p => p.1 == k) with
  | none => rw [hfind] at hl; cases hl
  | some p =>
    have hm := List.mem_of_find?_eq_some hfind
    have hp := List.find?_some hfind
    exact List.any_eq_true.mpr ⟨p, hm, hp⟩

/-- Writing back the value a case-insensitive search just found leaves the
map unchanged: entries before the found one do not match case-insensitively,
so none of them carries the found key. -/
theorem hSet_hFindCI_self :
    ∀ (h : Headers) (name k v : String),
      hFindCI h name = some (k, v) → hSet h k v = h := by
  intro h
  induction h with
  | nil => intro name k v hf; cases hf
  | cons p t ih =>
    intro name k v hf
    by_cases hp : asciiLower p.1 = asciiLower name
    · have : hFindCI (p :: t) name = some p := by
        simp [hFindCI, List.find?_cons_of_pos, hp]
      rw [this] at hf
      cases hf
      simp [hSet]
    · have hskip : hFindCI (p :: t) name = hFindCI t name := by
        simp [hFindCI]
        rw [List.find?_cons_of_neg]
        simpa using hp
      rw [hskip] at hf
      have hk : asciiLower k = asciiLower name := hFindCI_matches hf
      have hne : (p.1 == k) = false := by
        by_contra hcon
        have : p.1 = k := by
          have := eq_true_of_ne_false hcon
          exact eq_of_beq this
        exact hp (this ▸ hk)
      cases p with
      | mk pk pv =>
        simp only [hSet]
        rw [if_neg (by simpa using hne)]
        rw [ih name k v hf]

/-- Setting a key makes it look up to the written value. -/
theorem hLookup_hSet (h : Headers) (k v : String) :
    hLookup (hSet h k v) k = some v := by
  induction h with
  | nil => simp [hSet, hLookup]
  | cons p t ih =>
    by_cases hp : p.1 = k
    · simp [hSet, hp, hLookup]
    · cases p with
      | mk pk pv =>
        simp only at hp
        simp only [hSet, if_neg (by simpa using hp)]
        simpa [hLookup, List.find?_cons_of_neg, hp] using ih

/-- Dropping a non-matching head entry preserves key membership. -/
theorem hContains_tail {pk pv k : String} {t : Headers}
    (hc : hContains ((pk, pv) :: t) k = true) (hne : pk ≠ k) :
    hContains t k = true := by
  simp only [hContains, List.any_cons, Bool.or_eq_true] at hc
  rcases hc with hh | ht
  · exact absurd (by simpa using hh) hne
  · exact ht

/-- Membership in the tail gives membership after a cons. -/
theorem hContains_cons_of_tail {pk pv k : String} {t : Headers}
    (hc : hContains t k = true) : hContains ((pk, pv) :: t) k = true := by
  simp only [hContains, List.any_cons, Bool.or_eq_true]
  exact Or.inr hc

/-- Setting a present key preserves the size of the map. -/
theorem hSet_length_of_contains (h : Headers) (k v : String)
    (hc : hContains h k = true) : (hSet h k v).length = h.length := by
  induction h with
  | nil => cases hc
  | cons p t ih =>
    cases p with
    | mk pk pv =>
      by_cases hp : pk = k
      · have hb : (pk == k) = true := by simp [hp]
        simp [hSet, hb]
      · have hb : (pk == k) = false := by simp [hp]
        simp [hSet, hb, ih (hContains_tail hc hp)]

/-- Erasing one key keeps all bindings of every other key. -/
theorem hContains_hEraseKey (h : Headers) (k k' : String) (hne : k' ≠ k)
    (hc : hContains h k' = true) : hContains (hEraseKey h k) k' = true := by
  induction h with
  | nil => cases hc
  | cons p t ih =>
    cases p with
    | mk pk pv =>
      by_cases hp : pk = k
      · have hb : (pk == k) = true := by simp [hp]
        have hpk : pk ≠ k' := fun hEq => hne (by rw [← hEq]; exact hp)
        rw [show hEraseKey ((pk, pv) :: t) k = t by simp [hEraseKey, hb]]
        exact hContains_tail hc hpk
      · have hb : (pk == k) = false := by simp [hp]
        rw [show hEraseKey ((pk, pv) :: t) k = (pk, pv) :: hEraseKey t k by
          simp [hEraseKey, hb]]
        by_cases hpk : pk = k'
        · simp only [hContains, List.any_cons, Bool.or_eq_true]
          exact Or.inl (by simp [hpk])
        · exact hContains_cons_of_tail (ih (hContains_tail hc hpk))

/-- Erasing a present key shrinks the map by exactly one entry. -/
theorem hEraseKey_length (h : Headers) (k : String)
    (hc : hContains h k = true) : (hEraseKey h k).length + 1 = h.length := by
  induction h with
  | nil => cases hc
  | cons p t ih =>
    cases p with
    | mk pk pv =>
      by_cases hp : pk = k
      · have hb : (pk == k) = true := by simp [hp]
        simp [hEraseKey, hb]
      · have hb : (pk == k) = false := by simp [hp]
        have := ih (hContains_tail hc hp)
        simp only [hEraseKey, hb, Bool.false_eq_true, if_false, List.length_cons]
        omega

/-- A `replace_value` entry whose rule is regex-flagged with a pattern the
engine rejects leaves the header map exactly as it was: the caught
substitution failure writes back the value the search just found. -/
theorem replaceValueStep_invalid_regex_inert
    (engine : RegexEngine) (h : Headers) (name : String) (r : ReplaceValueRule)
    (hreg : r.regex = true)
    (hbad : ∀ inp cs, ∃ e, engine.sub r.search r.replace inp cs = Except.error e) :
    replaceValueStep engine h name (RVEntry.rule r) = .ok h := by
  unfold replaceValueStep
  cases hf : hFindCI h name with
  | none => rfl
  | some p =>
    cases p with
    | mk k v =>
      obtain ⟨e, he⟩ := hbad v r.case_sensitive
      simp only [Bind.bind, Except.bind]
      rw [show apply_replace_value engine v r = v by
        simp [apply_replace_value, hreg, he]]
      rw [hSet_hFindCI_self h name k v hf]

/-- Folding a monadic step over a list is unchanged by deleting an element the
step treats as the identity. -/
theorem foldlM_drop_identity {α β : Type}
    (f : α → β → Except String α) (e₀ : β)
    (hid : ∀ acc, f acc e₀ = .ok acc) :
    ∀ (l₁ l₂ : List β) (init : α),
      List.foldlM f init (l₁ ++ e₀ :: l₂) = List.foldlM f init (l₁ ++ l₂) := by
  intro l₁
  induction l₁ with
  | nil =>
    intro l₂ init
    simp [List.foldlM_cons, hid init, Bind.bind, Except.bind]
  | cons p t ih =>
    intro l₂ init
    simp only [List.cons_append, List.foldlM_cons]
    cases hfp : f init p with
    | error e => simp [Bind.bind, Except.bind]
    | ok a => simp [Bind.bind, Except.bind, ih l₂ a]

/-- C7: For every headers map and every well-shaped `replace_value` entry whose
regex flag is true but whose search pattern the regex engine rejects, applying
the parsed rules gives exactly the same result as applying them with that
entry deleted: the targeted header keeps its value, no exception escapes, and
every other configured rule still applies. (The raw-rules spec example is
discharged in the witness.) -/
theorem apply_invalid_regex_entry_inert
    (engine : RegexEngine) (h : Headers) (hr : HeaderRules)
    (es₁ es₂ : List (String × RVEntry)) (name : String) (r : ReplaceValueRule)
    (hrv : hr.replace_value = some (es₁ ++ (name, RVEntry.rule r) :: es₂))
    (hreg : r.regex = true)
    (hbad : ∀ inp cs, ∃ e, engine.sub r.search r.replace inp cs = Except.error e) :
    applyParsedRules engine h hr
      = applyParsedRules engine h { hr with replace_value := some (es₁ ++ es₂) } := by
  unfold applyParsedRules
  simp only [hrv]
  have hid : ∀ acc, replaceValueStep engine acc name (RVEntry.rule r) = .ok acc :=
    fun acc => replaceValueStep_invalid_regex_inert engine acc name r hreg hbad
  have hfold := foldlM_drop_identity
    (fun acc (e : String × RVEntry) => replaceValueStep engine acc e.1 e.2)
    (name, RVEntry.rule r) hid es₁ es₂
  simp only [hfold]

/-- Raw rules of the spec example for C7: well-shaped entry, invalid pattern. -/
def c7Rules : PyVal :=
  .dict [("replace_value", .dict [("X-H", .dict
    [("search", .str "["), ("replace", .str "y"), ("regex", .bool true)])])]

/-- Parsed form of `c7Rules`. -/
def c7HR : HeaderRules :=
  ⟨Option.none, Option.none, Option.none,
   some [("X-H", RVEntry.rule ⟨"[", "y", true, true⟩)]⟩

/-- C7 witness: at the spec example the invalid-regex entry is inert (via the
theorem), and the raw-level call returns the original headers unchanged with
no error. -/
theorem apply_invalid_regex_entry_inert_witness :
    (applyParsedRules noRegexEngine [("X-H", "abc")] c7HR
      = applyParsedRules noRegexEngine [("X-H", "abc")]
          ⟨Option.none, Option.none, Option.none, some []⟩) ∧
    apply_header_rules noRegexEngine [("X-H", "abc")] (some c7Rules)
      = .ok [("X-H", "abc")] := by
  constructor
  · have h := apply_invalid_regex_entry_inert noRegexEngine [("X-H", "abc")] c7HR
      [] [] "X-H" ⟨"[", "y", true, true⟩ rfl rfl
      (fun inp cs => ⟨"re.error", rfl⟩)
    simpa using h
  · rfl

/-- Raw rules whose `replace_value` holds a malformed mapping: the required
`search` field is missing, so pydantic's union falls back to the raw dict. -/
def c1Rules : PyVal :=
  .dict [("replace_value", .dict [("X-H", .dict [("replace", .str "y")])])]

/-- C1: the claim says `apply` never raises and returns the original headers on
any parse failure — in particular for a malformed `replace_value` mapping with
a matching header present. The code violates this: parsing succeeds (the raw
dict survives the union), and the deferred `ReplaceValueRule(**value_rule)`
at header_rules.py line 130 sits outside the try/except of lines 81-96, so the
validation error propagates to the caller instead of the original headers
being returned. -/
theorem apply_malformed_replace_value_raises :
    apply_header_rules noRegexEngine [("X-H", "abc")] (some c1Rules)
      = .error "Field required: search" := rfl

/-- Regex-check loop: entries that pass (or are skipped) are dropped from the
front without changing the verdict. -/
theorem validateRVEntries_skip (engine : RegexEngine) :
    ∀ (es₁ rest : List (String × RVEntry)),
      (∀ p ∈ es₁, ∀ r, p.2 = RVEntry.rule r → r.regex = true →
        ∃ u, engine.compile r.search = .ok u) →
      validateRVEntries engine (es₁ ++ rest) = validateRVEntries engine rest := by
  intro es₁
  induction es₁ with
  | nil => intro rest _; rfl
  | cons p t ih =>
    intro rest hok
    have htail : ∀ q ∈ t, ∀ r, q.2 = RVEntry.rule r → r.regex = true →
        ∃ u, engine.compile r.search = .ok u :=
      fun q hq => hok q (List.mem_cons_of_mem _ hq)
    cases p with
    | mk name entry =>
      cases entry with
      | raw d => simpa [validateRVEntries] using ih rest htail
      | rule r =>
        by_cases hreg : r.regex = true
        · obtain ⟨u, hu⟩ := hok (name, RVEntry.rule r) (List.mem_cons_self _ _) r rfl hreg
          simpa [validateRVEntries, hreg, hu] using ih rest htail
        · simpa [validateRVEntries, hreg] using ih rest htail

/-- C3 amended: for every rules input whose `replace_value` holds an entry that
pydantic kept as a `ReplaceValueRule` (search and replace both present), whose
regex flag is true and whose pattern the engine rejects — all earlier entries
passing — `validate` returns a failure naming that first failing entry, and
never an exception. -/
theorem validate_reports_first_invalid_regex
    (engine : RegexEngine) (rules : List (String × PyVal)) (hr : HeaderRules)
    (es₁ es₂ : List (String × RVEntry)) (name : String) (r : ReplaceValueRule)
    (e : String)
    (hp : HeaderRules.parse rules = .ok hr)
    (hrv : hr.replace_value = some (es₁ ++ (name, RVEntry.rule r) :: es₂))
    (hok : ∀ p ∈ es₁, ∀ r', p.2 = RVEntry.rule r' → r'.regex = true →
      ∃ u, engine.compile r'.search = .ok u)
    (hreg : r.regex = true)
    (hbad : engine.compile r.search = .error e) :
    validate_header_rules engine rules
      = (false, some ("Invalid regex in " ++ name ++ ": " ++ e)) := by
  have h1 : validate_header_rules engine rules
      = validateRVEntries engine (es₁ ++ (name, RVEntry.rule r) :: es₂) := by
    unfold validate_header_rules
    rw [hp]
    show (match hr.replace_value with
          | Option.none => (true, Option.none)
          | some entries => validateRVEntries engine entries) = _
    rw [hrv]
  rw [h1, validateRVEntries_skip engine es₁ _ hok]
  simp [validateRVEntries, hreg, hbad]

/-- Raw rules of the spec example for C3. -/
def c3Rules : List (String × PyVal) :=
  [("replace_value", .dict [("X-H", .dict
    [("search", .str "["), ("replace", .str "y"), ("regex", .bool true)])])]

/-- C3 witness: on the well-shaped spec example, `validate` reports the
failing entry by name, via the amended theorem. -/
theorem validate_reports_first_invalid_regex_witness :
    validate_header_rules noRegexEngine c3Rules
      = (false, some "Invalid regex in X-H: re.error") := by
  have h := validate_reports_first_invalid_regex noRegexEngine c3Rules
    ⟨Option.none, Option.none, Option.none,
     some [("X-H", RVEntry.rule ⟨"[", "y", true, true⟩)]⟩
    [] [] "X-H" ⟨"[", "y", true, true⟩ "re.error"
    rfl rfl (by intro p hp; cases hp) rfl rfl
  simpa using h

/-- Rules whose `replace_value` entry has regex true and an invalid pattern but
is malformed (missing `replace`): pydantic's union keeps it as a raw dict. -/
def c3MalformedRules : List (String × PyVal) :=
  [("replace_value", .dict [("X-H", .dict
    [("search", .str "["), ("regex", .bool true)])])]

/-- C3 counterexample: the claim says `validate` returns a failure for EVERY
rules input whose `replace_value` holds an entry with regex true and an
invalid search pattern. This entry (search "[", regex true, no `replace`)
falls back to the Union's `Dict[str, Any]` branch, so the `isinstance`
check at header_rules.py line 196 skips it and `validate` returns success —
even though the engine rejects "[" (second conjunct). -/
theorem validate_malformed_invalid_regex_passes :
    validate_header_rules noRegexEngine c3MalformedRules = (true, Option.none) ∧
    (∃ e, noRegexEngine.compile "[" = .error e) :=
  ⟨rfl, ⟨"re.error", rfl⟩⟩

/-- C10: during `apply`'s replace_name step, when the first case-insensitive
match of `old` is the entry `(k, v)` and a distinct header named exactly `new`
already exists, the renamed header's value `v` silently overwrites it and the
header count drops by one — while the add step (second conjunct) never
overwrites an existing `new` header. -/
theorem apply_replace_name_overwrites_existing
    (engine : RegexEngine) (h : Headers) (old new k v w : String)
    (hfind : hFindCI h old = some (k, v))
    (hnew : hLookup h new = some w)
    (hne : new ≠ k) :
    (∃ res, apply_header_rules engine h
        (some (.dict [("replace_name", .dict [(old, .str new)])])) = .ok res ∧
      hLookup res new = some v ∧ res.length + 1 = h.length) ∧
    (∀ z, apply_header_rules engine h
        (some (.dict [("add", .dict [(new, .str z)])])) = .ok h) := by
  constructor
  · refine ⟨hSet (hEraseKey h k) new v, ?_, ?_, ?_⟩
    · have happ : apply_header_rules engine h
          (some (.dict [("replace_name", .dict [(old, .str new)])]))
          = .ok (replaceNameStep h old new) := rfl
      rw [happ]
      simp [replaceNameStep, hfind]
    · exact hLookup_hSet _ new v
    · have hck : hContains h k = true := hContains_of_hFindCI hfind
      have hcnew : hContains h new = true := hContains_of_hLookup hnew
      have hcnew' : hContains (hEraseKey h k) new = true :=
        hContains_hEraseKey h k new hne hcnew
      rw [hSet_length_of_contains _ new v hcnew']
      exact hEraseKey_length h k hck
  · intro z
    have happ : apply_header_rules engine h
        (some (.dict [("add", .dict [(new, .str z)])]))
        = .ok (addStep h new z) := rfl
    rw [happ]
    simp [addStep, hContains_of_hLookup hnew]

/-- C10 witness: renaming `x-a` to `X-B` on `{"X-A": "1", "X-B": "2"}`
overwrites the existing `X-B` and shrinks the map, via the theorem. -/
theorem apply_replace_name_overwrites_existing_witness :
    (∃ res, apply_header_rules noRegexEngine [("X-A", "1"), ("X-B", "2")]
        (some (.dict [("replace_name", .dict [("x-a", .str "X-B")])])) = .ok res ∧
      hLookup res "X-B" = some "1" ∧
      res.length + 1 = ([("X-A", "1"), ("X-B", "2")] : Headers).length) ∧
    (∀ z, apply_header_rules noRegexEngine [("X-A", "1"), ("X-B", "2")]
        (some (.dict [("add", .dict [("X-B", .str z)])]))
        = .ok [("X-A", "1"), ("X-B", "2")]) :=
  apply_replace_name_overwrites_existing noRegexEngine
    [("X-A", "1"), ("X-B", "2")] "x-a" "X-B" "X-A" "1" "2"
    rfl rfl (by decide)

/-! ## Model resolution cache (src/services/cache/model_cache.py) -/

/-- Datastore row `Provider(id, is_active)`, read-only here. -/
structure Provider where
  id : String
  is_active : PyVal
deriving Repr

/-- Datastore row `Model`: one provider's offering bound to one GlobalModel.
Fields no claim inspects are carried as raw values. -/
structure Model where
  id : String
  provider_id : String
  global_model_id : String
  provider_model_name : String
  provider_model_aliases : PyVal
  is_active : PyVal
  is_available : PyVal
  price_per_request : PyVal
  tiered_pricing : PyVal
  supports_vision : PyVal
  supports_function_calling : PyVal
  supports_streaming : PyVal
  supports_extended_thinking : PyVal
  supports_image_generation : PyVal
  config : PyVal
deriving Repr

/-- Datastore row `GlobalModel`: the canonical cross-provider identity. -/
structure GlobalModel where
  id : String
  name : String
  display_name : PyVal
  default_supports_vision : PyVal
  default_supports_function_calling : PyVal
  default_supports_streaming : PyVal
  default_supports_extended_thinking : PyVal
  default_supports_image_generation : PyVal
  supported_capabilities : PyVal
  is_active : PyVal
  description : PyVal
deriving Repr

/-- SQLAlchemy boolean filter `col == True` on a stored value. -/
def pyIsTrue : PyVal → Bool
  | .bool b => b
  | _ => false

/-- The `cached_data == "NOT_FOUND"` sentinel test (line 261). -/
def isNotFoundSentinel : PyVal → Bool
  | .str s => s == "NOT_FOUND"
  | _ => false

/-- The cache backend: string keys to values. TTL is a real-time notion
outside the embedding; within one call no entry expires, so an entry is
simply present or absent. -/
abbrev Cache := List (String × PyVal)

/-- `CacheService.get`: `PyVal.none` (Python `None`) when the key is absent. -/
def cacheGet (c : Cache) (k : String) : PyVal :=
  ((c.find? (fun p => p.1 == k)).map (fun p => p.2)).getD PyVal.none

/-- `CacheService.set`: overwrite the binding in place, or append. -/
def cacheSet : Cache → String → PyVal → Cache
  | [], k, v => [(k, v)]
  | p :: t, k, v => if p.1 == k then (k, v) :: t else p :: cacheSet t k v

/-- The read-only relational query surface. -/
structure Db where
  providers : List Provider
  models : List Model
  global_models : List GlobalModel
deriving Repr

/-- `_model_to_dict` (lines 432-452). The `float()` coercion on
`price_per_request` is elided; its `x if x else None` truthiness is kept. -/
def model_to_dict (m : Model) : List (String × PyVal) :=
  [("id", .str m.id),
   ("provider_id", .str m.provider_id),
   ("global_model_id", .str m.global_model_id),
   ("provider_model_name", .str m.provider_model_name),
   ("provider_model_aliases", m.provider_model_aliases),
   ("is_active", m.is_active),
   ("is_available", m.is_available),
   ("price_per_request",
    if m.price_per_request.truthy then m.price_per_request else PyVal.none),
   ("tiered_pricing", m.tiered_pricing),
   ("supports_vision", m.supports_vision),
   ("supports_function_calling", m.supports_function_calling),
   ("supports_streaming", m.supports_streaming),
   ("supports_extended_thinking", m.supports_extended_thinking),
   ("supports_image_generation", m.supports_image_generation),
   ("config", m.config)]

/-- Required access `d["k"]` to a string-valued key: a missing key is Python's
KeyError; the snapshots written by this module always hold strings there, so a
non-string is likewise an error. -/
def reqStrKey (d : List (String × PyVal)) (k : String) : Except String String :=
  match pyGet d k with
  | some (.str s) => .ok s
  | some _ => .error ("TypeError: " ++ k)
  | Option.none => .error ("KeyError: " ++ k)

/-- Required access `d["k"]` to a raw value (KeyError when absent). -/
def reqKey (d : List (String × PyVal)) (k : String) : Except String PyVal :=
  match pyGet d k with
  | some v => .ok v
  | Option.none => .error ("KeyError: " ++ k)

/-- `_dict_to_model` (lines 455-474): `id`, `provider_id`, `global_model_id`,
`provider_model_name` and `is_active` use bracket access; the rest default. -/
def dict_to_model (v : PyVal) : Except String Model := do
  match v with
  | .dict d =>
    let id ← reqStrKey d "id"
    let pid ← reqStrKey d "provider_id"
    let gid ← reqStrKey d "global_model_id"
    let pmn ← reqStrKey d "provider_model_name"
    let act ← reqKey d "is_active"
    .ok ⟨id, pid, gid, pmn,
         pyGetD d "provider_model_aliases" PyVal.none,
         act,
         pyGetD d "is_available" (.bool true),
         pyGetD d "price_per_request" PyVal.none,
         pyGetD d "tiered_pricing" PyVal.none,
         pyGetD d "supports_vision" PyVal.none,
         pyGetD d "supports_function_calling" PyVal.none,
         pyGetD d "supports_streaming" PyVal.none,
         pyGetD d "supports_extended_thinking" PyVal.none,
         pyGetD d "supports_image_generation" PyVal.none,
         pyGetD d "config" PyVal.none⟩
  | _ => .error "TypeError: not a dict"

/-- `_global_model_to_dict` (lines 477-491). -/
def global_model_to_dict (g : GlobalModel) : List (String × PyVal) :=
  [("id", .str g.id),
   ("name", .str g.name),
   ("display_name", g.display_name),
   ("default_supports_vision", g.default_supports_vision),
   ("default_supports_function_calling", g.default_supports_function_calling),
   ("default_supports_streaming", g.default_supports_streaming),
   ("default_supports_extended_thinking", g.default_supports_extended_thinking),
   ("default_supports_image_generation", g.default_supports_image_generation),
   ("supported_capabilities", g.supported_capabilities),
   ("is_active", g.is_active),
   ("description", g.description)]

/-- `_dict_to_global_model` (lines 494-515): `id` and `name` are required
(bracket access — a KeyError propagates), every other field defaults, and a
falsy `supported_capabilities` becomes the empty list (`.get(...) or []`). -/
def dict_to_global_model (v : PyVal) : Except String GlobalModel := do
  match v with
  | .dict d =>
    let id ← reqStrKey d "id"
    let name ← reqStrKey d "name"
    let sc := pyGetD d "supported_capabilities" PyVal.none
    .ok ⟨id, name,
         pyGetD d "display_name" PyVal.none,
         pyGetD d "default_supports_vision" (.bool false),
         pyGetD d "default_supports_function_calling" (.bool false),
         pyGetD d "default_supports_streaming" (.bool true),
         pyGetD d "default_supports_extended_thinking" (.bool false),
         pyGetD d "default_supports_image_generation" (.bool false),
         if sc.truthy then sc else .list [],
         pyGetD d "is_active" (.bool true),
         pyGetD d "description" PyVal.none⟩
  | _ => .error "TypeError: not a dict"

/-- `get_model_by_id` (lines 29-58): cache-first; a found datastore row is
written back; a double miss writes nothing. -/
def get_model_by_id (db : Db) (cache : Cache) (model_id : String) :
    Except String (Option Model) × Cache :=
  let key := "model:id:" ++ model_id
  let cached := cacheGet cache key
  if cached.truthy then
    ((dict_to_model cached).map some, cache)
  else
    match db.models.find? (fun m => m.id == model_id) with
    | some m => (.ok (some m), cacheSet cache key (.dict (model_to_dict m)))
    | Option.none => (.ok Option.none, cache)

/-- `get_global_model_by_id` (lines 61-91). -/
def get_global_model_by_id (db : Db) (cache : Cache) (gid : String) :
    Except String (Option GlobalModel) × Cache :=
  let key := "global_model:id:" ++ gid
  let cached := cacheGet cache key
  if cached.truthy then
    ((dict_to_global_model cached).map some, cache)
  else
    match db.global_models.find? (fun g => g.id == gid) with
    | some g => (.ok (some g), cacheSet cache key (.dict (global_model_to_dict g)))
    | Option.none => (.ok Option.none, cache)

/-- `get_model_by_provider_and_global_model` (lines 93-137): the datastore
lookup filters to active models. -/
def get_model_by_provider_and_global_model (db : Db) (cache : Cache)
    (pid gid : String) : Except String (Option Model) × Cache :=
  let key := "model:provider_global:" ++ pid ++ ":" ++ gid
  let cached := cacheGet cache key
  if cached.truthy then
    ((dict_to_model cached).map some, cache)
  else
    match db.models.find? (fun m =>
        m.provider_id == pid && m.global_model_id == gid && pyIsTrue m.is_active) with
    | some m => (.ok (some m), cacheSet cache key (.dict (model_to_dict m)))
    | Option.none => (.ok Option.none, cache)

/-- `get_global_model_by_name` (lines 139-170); the datastore lookup filters
on the name only (no active filter at line 160). -/
def get_global_model_by_name (db : Db) (cache : Cache) (name : String) :
    Except String (Option GlobalModel) × Cache :=
  let key := "global_model:name:" ++ name
  let cached := cacheGet cache key
  if cached.truthy then
    ((dict_to_global_model cached).map some, cache)
  else
    match db.global_models.find? (fun g => g.name == name) with
    | some g => (.ok (some g), cacheSet cache key (.dict (global_model_to_dict g)))
    | Option.none => (.ok Option.none, cache)

/-- Active joined rows `Provider ⋈ Model ⋈ GlobalModel` — the full-scan
fallback query of lines 310-321. The primary JSONB-filtered query of lines
284-303 feeds a subset of these rows to the identical matching loop and
produces the same matches for the stored exact alias names; the
`OperationalError` fallback (line 304) is the degradation the spec requires.
Row order is the embedding's list order (the SQL order is unspecified; no
claim depends on it beyond the sort the code itself performs). -/
def activeJoinedRows (db : Db) : List (Model × GlobalModel) :=
  db.models.flatMap (fun m =>
    if pyIsTrue m.is_active then
      (db.providers.filter (fun p =>
          p.id == m.provider_id && pyIsTrue p.is_active)).flatMap (fun _ =>
        (db.global_models.filter (fun g =>
            g.id == m.global_model_id && pyIsTrue g.is_active)).map (fun g => (m, g)))
    else [])

/-- Alias predicate of lines 332-343: some alias entry is a dict whose
stripped `name` equals the normalized name. The guard `if aliases:` skips
falsy values, and the schema stores JSON arrays, so only lists are iterated.
A missing `name` key defaults to `""` before stripping; a non-string `name`
would crash Python's `.strip()` and is outside this embedding (the schema
stores strings). -/
def aliasMatches (aliases : PyVal) (n : String) : Bool :=
  match aliases with
  | .list entries =>
    entries.any (fun e =>
      match e with
      | .dict d =>
        match pyGet d "name" with
        | some (.str s) => pyStrip s == n
        | some _ => false
        | Option.none => pyStrip "" == n
      | _ => false)
  | _ => false

/-- Key of the dedup dict of line 329: `(model id, global model id)`. -/
abbrev MatchKey := String × String

/-- The dedup dict `matched_models_dict`, insertion-ordered. -/
abbrev MatchAcc := List (MatchKey × (GlobalModel × String × Nat))

/-- Dict lookup on the dedup accumulator. -/
def matchAccGet (acc : MatchAcc) (k : MatchKey) :
    Option (GlobalModel × String × Nat) :=
  (acc.find? (fun p => p.1 == k)).map (fun p => p.2)

/-- Dict assignment on the dedup accumulator: in-place update or append. -/
def matchAccSet : MatchAcc → MatchKey → GlobalModel × String × Nat → MatchAcc
  | [], k, v => [(k, v)]
  | p :: t, k, v => if p.1 == k then (k, v) :: t else p :: matchAccSet t k v

/-- One iteration of the matching loop (lines 328-354): an alias match
(priority 0) overwrites any entry for the key; a provider-name match
(priority 1) is inserted only when the key is absent (the code's guard
`key not in matched or matched[key][1] != "alias"` followed by
`key not in matched`). -/
def matchStep (n : String) (acc : MatchAcc) (row : Model × GlobalModel) :
    MatchAcc :=
  let m := row.1
  let g := row.2
  let key : MatchKey := (m.id, g.id)
  let acc1 :=
    if aliasMatches m.provider_model_aliases n then
      matchAccSet acc key (g, "alias", 0)
    else acc
  let notAlias :=
    match matchAccGet acc1 key with
    | Option.none => true
    | some v => v.2.1 != "alias"
  if notAlias && (m.provider_model_name == n) then
    match matchAccGet acc1 key with
    | Option.none => matchAccSet acc1 key (g, "provider_model_name", 1)
    | some _ => acc1
  else acc1

/-- Candidates after the loop: the dedup dict's values in insertion order,
mapped to `(GlobalModel, match_type)` pairs (lines 359-361 drop the stored
priority). -/
def matchedPairs (db : Db) (n : String) : List (GlobalModel × String) :=
  (((activeJoinedRows db).foldl (matchStep n) []).map (fun p => p.2)).map
    (fun v => (v.1, v.2.1))

/-- Lexicographic `≤` on character lists by code point — Python's string
comparison. -/
def charsLe : List Char → List Char → Bool
  | [], _ => true
  | _ :: _, [] => false
  | a :: xs, b :: ys =>
    if a.toNat < b.toNat then true
    else if b.toNat < a.toNat then false
    else charsLe xs ys

/-- Python `a <= b` on strings. -/
def pyStrLe (a b : String) : Bool := charsLe a.data b.data

/-- Rank of a candidate under the sort key of lines 362-367: alias = 0,
provider-name = 1. -/
def candRank (a : GlobalModel × String) : Nat :=
  if a.2 == "alias" then 0 else 1

/-- The sort order of lines 362-367: by `(rank, GlobalModel name)`,
lexicographically. -/
def candLE (a b : GlobalModel × String) : Bool :=
  if candRank a < candRank b then true
  else if candRank b < candRank a then false
  else pyStrLe a.1.name b.1.name

/-- `candLE` as a relation, for the stable sort. -/
def candRel (a b : GlobalModel × String) : Prop := candLE a b = true

instance : DecidableRel candRel :=
  fun a b => inferInstanceAs (Decidable (candLE a b = true))

/-- Distinct GlobalModel ids among the candidates, in first-seen order (the
`unique_models` dict comprehension of line 374). -/
def distinctGmIds (l : List (GlobalModel × String)) : List String :=
  l.foldl (fun acc p => if acc.contains p.1.id then acc else acc ++ [p.1.id]) []

/-- The resolve-specific cache key (line 255). -/
def resolveCacheKey (n : String) : String := "global_model:resolve:" ++ n

/-- Steps 2-4 of resolution (lines 276-419): datastore matching, ranked
deterministic choice with the conflict counter, direct-name fallback, and
negative caching. Taken on a plain cache miss and on a stale-shaped positive
entry alike. `conflicts` is `model_mapping_conflict_total`. -/
def resolveFromDb (db : Db) (cache : Cache) (conflicts : Nat) (n : String) :
    Except String (Option GlobalModel) × Cache × Nat :=
  let cands := matchedPairs db n
  -- Python's `list.sort` is a stable sort by the key above; modelled by the
  -- stable insertion sort.
  match List.insertionSort candRel cands with
  | best :: rest =>
    let conflicts' :=
      if rest.isEmpty then conflicts
      else if 1 < (distinctGmIds (best :: rest)).length then conflicts + 1
      else conflicts
    (.ok (some best.1),
     cacheSet cache (resolveCacheKey n) (.dict (global_model_to_dict best.1)),
     conflicts')
  | [] =>
    match db.global_models.find? (fun g => g.name == n && pyIsTrue g.is_active) with
    | some g =>
      (.ok (some g),
       cacheSet cache (resolveCacheKey n) (.dict (global_model_to_dict g)),
       conflicts)
    | Option.none =>
      (.ok Option.none, cacheSet cache (resolveCacheKey n) (.str "NOT_FOUND"),
       conflicts)

/-- `resolve_global_model_by_name_or_alias` (lines 228-429). The empty
normalized name returns before the try block, so nothing is read, written or
counted. A truthy cached value is the negative sentinel, a current snapshot
(returned through the reconstructor), a stale-shaped dict missing
`supported_capabilities` (treated as a miss, lines 267-269), or a non-dict
truthy value (whose reconstruction fails, as Python's would). The duration
histogram and the labelled outcome counters of the finally block are
real-time metrics not modelled here; the conflict counter is threaded
through. -/
def resolve_global_model_by_name_or_alias (db : Db) (cache : Cache)
    (conflicts : Nat) (model_name : String) :
    Except String (Option GlobalModel) × Cache × Nat :=
  let n := pyStrip model_name
  if n.isEmpty then (.ok Option.none, cache, conflicts)
  else
    let cached := cacheGet cache (resolveCacheKey n)
    if cached.truthy then
      if isNotFoundSentinel cached then (.ok Option.none, cache, conflicts)
      else
        match cached with
        | .dict d =>
          if pyContains d "supported_capabilities" then
            ((dict_to_global_model (.dict d)).map some, cache, conflicts)
          else
            resolveFromDb db cache conflicts n
        | other => ((dict_to_global_model other).map some, cache, conflicts)
    else resolveFromDb db cache conflicts n

/-! ### Order lemmas for the candidate sort -/

/-- Lexicographic character comparison is reflexive. -/
theorem charsLe_refl : ∀ xs, charsLe xs xs = true := by
  intro xs
  induction xs with
  | nil => rfl
  | cons a t ih => simp [charsLe, ih]

/-- Lexicographic character comparison is total. -/
theorem charsLe_total : ∀ xs ys, charsLe xs ys = true ∨ charsLe ys xs = true := by
  intro xs
  induction xs with
  | nil => intro ys; left; rfl
  | cons a t ih =>
    intro ys
    cases ys with
    | nil => right; rfl
    | cons b u =>
      rcases Nat.lt_trichotomy a.toNat b.toNat with h | h | h
      · left; simp [charsLe, h]
      · have h1 : ¬ a.toNat < b.toNat := by omega
        have h2 : ¬ b.toNat < a.toNat := by omega
        rcases ih u with hl | hr
        · left; simp [charsLe, h1, h2, hl]
        · right; simp [charsLe, h1, h2, hr]
      · right; simp [charsLe, h]

/-- Lexicographic character comparison is transitive. -/
theorem charsLe_trans : ∀ xs ys zs, charsLe xs ys = true → charsLe ys zs = true →
    charsLe xs zs = true := by
  intro xs
  induction xs with
  | nil => intro ys zs _ _; rfl
  | cons a t ih =>
    intro ys zs hab hbc
    cases ys with
    | nil => cases hab
    | cons b u =>
      cases zs with
      | nil => cases hbc
      | cons c v =>
        by_cases h1 : a.toNat < b.toNat
        · have hbcle : b.toNat ≤ c.toNat := by
            by_contra hgt
            have h3 : ¬ b.toNat < c.toNat := by omega
            have h4 : c.toNat < b.toNat := by omega
            simp [charsLe, h3, h4] at hbc
          simp [charsLe, show a.toNat < c.toNat by omega]
        · by_cases h2 : b.toNat < a.toNat
          · simp [charsLe, h1, h2] at hab
          · -- a.toNat = b.toNat
            by_cases h3 : b.toNat < c.toNat
            · simp [charsLe, show a.toNat < c.toNat by omega]
            · by_cases h4 : c.toNat < b.toNat
              · simp [charsLe, h3, h4] at hbc
              · have h5 : ¬ a.toNat < c.toNat := by omega
                have h6 : ¬ c.toNat < a.toNat := by omega
                simp [charsLe, h1, h2] at hab
                simp [charsLe, h3, h4] at hbc
                simp [charsLe, h5, h6, ih u v hab hbc]

/-- The candidate order is reflexive. -/
theorem candLE_refl (a : GlobalModel × String) : candLE a a = true := by
  simp [candLE, pyStrLe, charsLe_refl]

/-- The candidate order is total. -/
theorem candLE_total (a b : GlobalModel × String) :
    candLE a b = true ∨ candLE b a = true := by
  unfold candLE
  rcases Nat.lt_trichotomy (candRank a) (candRank b) with h | h | h
  · left; simp [h]
  · have h1 : ¬ candRank a < candRank b := by omega
    have h2 : ¬ candRank b < candRank a := by omega
    rcases charsLe_total a.1.name.data b.1.name.data with hl | hr
    · left; simp [h1, h2, pyStrLe, hl]
    · right; simp [h1, h2, pyStrLe, hr]
  · right; simp [h]

/-- The candidate order is transitive. -/
theorem candLE_trans {a b c : GlobalModel × String}
    (hab : candLE a b = true) (hbc : candLE b c = true) : candLE a c = true := by
  unfold candLE at hab hbc ⊢
  by_cases h1 : candRank a < candRank b
  · have hbc' : candRank b ≤ candRank c := by
      by_contra hgt
      have h3 : ¬ candRank b < candRank c := by omega
      have h4 : candRank c < candRank b := by omega
      simp [h3, h4] at hbc
    simp [show candRank a < candRank c by omega]
  · by_cases h2 : candRank b < candRank a
    · simp [h1, h2] at hab
    · by_cases h3 : candRank b < candRank c
      · simp [show candRank a < candRank c by omega]
      · by_cases h4 : candRank c < candRank b
        · simp [h3, h4] at hbc
        · have h5 : ¬ candRank a < candRank c := by omega
          have h6 : ¬ candRank c < candRank a := by omega
          simp [h1, h2, pyStrLe] at hab
          simp [h3, h4, pyStrLe] at hbc
          simp [h5, h6, pyStrLe, charsLe_trans _ _ _ hab hbc]

instance : IsTotal (GlobalModel × String) candRel := ⟨candLE_total⟩

instance : IsTrans (GlobalModel × String) candRel :=
  ⟨fun _ _ _ hab hbc => candLE_trans hab hbc⟩

/-! ### Concrete fixtures for the resolver claims -/

/-- An active GlobalModel with default capability values. -/
def mkGm (id name : String) : GlobalModel :=
  ⟨id, name, .none, .bool false, .bool false, .bool true, .bool false,
   .bool false, .list [], .bool true, .none⟩

/-- An active, available Model with the given aliases. -/
def mkModel (id pid gid pmn : String) (aliases : PyVal) : Model :=
  ⟨id, pid, gid, pmn, aliases, .bool true, .bool true, .none, .none, .none,
   .none, .none, .none, .none, .none⟩

/-- The spec's conflict scenario: two active Models in different Providers,
both aliased `"dup"`, pointing at GlobalModels `model-b` and `model-a` (the
`b` row listed first, so determinism cannot come from row order). -/
def dbDup : Db :=
  ⟨[⟨"p1", .bool true⟩, ⟨"p2", .bool true⟩],
   [mkModel "m2" "p2" "gb" "x2" (.list [.dict [("name", .str "dup")]]),
    mkModel "m1" "p1" "ga" "x1" (.list [.dict [("name", .str "dup")]])],
   [mkGm "gb" "model-b", mkGm "ga" "model-a"]⟩

/-- A datastore holding one active GlobalModel named `m` with id `g1`. -/
def dbDirect : Db := ⟨[], [], [mkGm "g1" "m"]⟩

/-- A cached resolve entry for `m` that contains `supported_capabilities` but
is missing `display_name` (and every other defaulted field the snapshot
reconstructor reads), and whose id `g9` differs from the datastore's `g1`. -/
def cacheTrusted : Cache :=
  [(resolveCacheKey "m", .dict [("id", .str "g9"), ("name", .str "zzz"),
    ("supported_capabilities", .list [])])]

/-- What `_dict_to_global_model` rebuilds from that entry. -/
def gmFromStaleCache : GlobalModel :=
  ⟨"g9", "zzz", .none, .bool false, .bool false, .bool true, .bool false,
   .bool false, .list [], .bool true, .none⟩

/-- A cached resolve entry for `m` whose shape is stale in the code's sense:
no `supported_capabilities` key. -/
def cacheStale : Cache :=
  [(resolveCacheKey "m", .dict [("id", .str "g9"), ("name", .str "zzz")])]

/-! ### Resolver claim theorems -/

/-- C9: an input that is empty after trimming resolves to not-found
immediately: for every datastore, every cache and every counter value the
result is `none` with the cache and the conflict counter untouched — the
outcome depends on neither, which is the observable content of "no cache
read, no cache write, no datastore query" (the code returns at line 253,
before the try block, so not even the metrics of the finally block fire). -/
theorem resolve_empty_name_is_inert
    (db : Db) (cache : Cache) (conflicts : Nat) (model_name : String)
    (h : pyStrip model_name = "") :
    resolve_global_model_by_name_or_alias db cache conflicts model_name
      = (.ok Option.none, cache, conflicts) := by
  unfold resolve_global_model_by_name_or_alias
  rw [h]
  rfl

/-- C9 witness: whitespace-only input on a populated datastore and cache. -/
theorem resolve_empty_name_is_inert_witness :
    resolve_global_model_by_name_or_alias dbDup [("k", .str "v")] 3 "   "
      = (.ok Option.none, [("k", .str "v")], 3) :=
  resolve_empty_name_is_inert dbDup [("k", .str "v")] 3 "   " rfl

/-- C8: each of the four point lookups performs no cache write when both the
cache and the datastore miss: the result is not-found and the cache is
returned exactly as it was — no negative sentinel, no entry at all. (A falsy
cached value is what the code's `if cached_data:` treats as a miss.) -/
theorem point_lookups_never_cache_negatively (db : Db) (cache : Cache) :
    (∀ id, (cacheGet cache ("model:id:" ++ id)).truthy = false →
      db.models.find? (fun m => m.id == id) = Option.none →
      get_model_by_id db cache id = (.ok Option.none, cache)) ∧
    (∀ gid, (cacheGet cache ("global_model:id:" ++ gid)).truthy = false →
      db.global_models.find? (fun g => g.id == gid) = Option.none →
      get_global_model_by_id db cache gid = (.ok Option.none, cache)) ∧
    (∀ pid gid,
      (cacheGet cache ("model:provider_global:" ++ pid ++ ":" ++ gid)).truthy = false →
      db.models.find? (fun m =>
        m.provider_id == pid && m.global_model_id == gid && pyIsTrue m.is_active)
        = Option.none →
      get_model_by_provider_and_global_model db cache pid gid
        = (.ok Option.none, cache)) ∧
    (∀ name, (cacheGet cache ("global_model:name:" ++ name)).truthy = false →
      db.global_models.find? (fun g => g.name == name) = Option.none →
      get_global_model_by_name db cache name = (.ok Option.none, cache)) := by
  refine ⟨?_, ?_, ?_, ?_⟩
  · intro id hc hdb
    simp [get_model_by_id, hc, hdb]
  · intro gid hc hdb
    simp [get_global_model_by_id, hc, hdb]
  · intro pid gid hc hdb
    simp [get_model_by_provider_and_global_model, hc, hdb]
  · intro name hc hdb
    simp [get_global_model_by_name, hc, hdb]

/-- C8 witness: double misses on an empty cache against `dbDirect` leave the
cache empty for all four operations, via the theorem. -/
theorem point_lookups_never_cache_negatively_witness :
    get_model_by_id dbDirect [] "m1" = (.ok Option.none, []) ∧
    get_global_model_by_id dbDirect [] "gX" = (.ok Option.none, []) ∧
    get_model_by_provider_and_global_model dbDirect [] "p1" "g1"
      = (.ok Option.none, []) ∧
    get_global_model_by_name dbDirect [] "other" = (.ok Option.none, []) := by
  obtain ⟨h1, h2, h3, h4⟩ := point_lookups_never_cache_negatively dbDirect []
  exact ⟨h1 "m1" rfl rfl, h2 "gX" rfl rfl, h3 "p1" "g1" rfl rfl,
    h4 "other" rfl rfl⟩

/-- C2 counterexample: the claim says a positive cached value missing ANY
field the snapshot reconstructor expects is treated as a miss, continuing to
the datastore. The entry of `cacheTrusted` is missing `display_name` (and all
the other defaulted fields `_dict_to_global_model` reads), yet the code's
shape probe checks only `supported_capabilities` (line 267), so the entry is
trusted: resolution returns the reconstructed `g9` snapshot with the cache
untouched, while treating it as a miss — what the claim mandates — would have
continued to the datastore and returned the active GlobalModel `g1`. -/
theorem resolve_trusts_entry_missing_expected_field :
    (resolve_global_model_by_name_or_alias dbDirect cacheTrusted 0 "m").1
        = .ok (some gmFromStaleCache) ∧
    (resolve_global_model_by_name_or_alias dbDirect cacheTrusted 0 "m").2.1
        = cacheTrusted ∧
    gmFromStaleCache.id = "g9" ∧
    (resolveFromDb dbDirect cacheTrusted 0 "m").1 = .ok (some (mkGm "g1" "m")) ∧
    (mkGm "g1" "m").id = "g1" :=
  ⟨rfl, rfl, rfl, rfl, rfl⟩

/-- C2 amended: the shape probe is the single field `supported_capabilities`:
a truthy positive cached dict without that key is treated as a cache miss and
resolution proceeds with exactly the shared post-cache path (`resolveFromDb`:
datastore matching, fallback, caching) that a plain miss takes. Entries
missing only defaulted reconstructor fields are trusted, and one missing a
required field (`id`, `name`) fails reconstruction instead. -/
theorem resolve_stale_shape_treated_as_miss
    (db : Db) (cache : Cache) (conflicts : Nat) (model_name : String)
    (d : List (String × PyVal))
    (hn : (pyStrip model_name).isEmpty = false)
    (hd : cacheGet cache (resolveCacheKey (pyStrip model_name)) = .dict d)
    (hne : d ≠ [])
    (hmiss : pyContains d "supported_capabilities" = false) :
    resolve_global_model_by_name_or_alias db cache conflicts model_name
      = resolveFromDb db cache conflicts (pyStrip model_name) := by
  unfold resolve_global_model_by_name_or_alias
  cases d with
  | nil => exact absurd rfl hne
  | cons p t =>
    simp [hn, hd, hmiss, PyVal.truthy, isNotFoundSentinel]

/-- C2 witness: the stale-shaped entry of `cacheStale` (no
`supported_capabilities`) is bypassed, via the amended theorem, and the
datastore's `g1` is returned — unlike the trusted entry of the
counterexample. -/
theorem resolve_stale_shape_treated_as_miss_witness :
    resolve_global_model_by_name_or_alias dbDirect cacheStale 0 "m"
      = resolveFromDb dbDirect cacheStale 0 "m" ∧
    (resolveFromDb dbDirect cacheStale 0 "m").1 = .ok (some (mkGm "g1" "m")) := by
  refine ⟨?_, rfl⟩
  exact resolve_stale_shape_treated_as_miss dbDirect cacheStale 0 "m"
    [("id", .str "g9"), ("name", .str "zzz")] rfl rfl (by simp) rfl

/-- C4: on a cache miss with a nonempty candidate set, resolution returns a
candidate that is minimal in the code's sort order: alias rank strictly
outranks provider-name rank, and within a rank the lexicographically smallest
GlobalModel name wins (`candLE best p` for every candidate `p`). -/
theorem resolve_ranked_deterministic_choice
    (db : Db) (cache : Cache) (conflicts : Nat) (model_name : String)
    (hn : (pyStrip model_name).isEmpty = false)
    (hc : (cacheGet cache (resolveCacheKey (pyStrip model_name))).truthy = false)
    (hm : matchedPairs db (pyStrip model_name) ≠ []) :
    ∃ best : GlobalModel × String,
      (resolve_global_model_by_name_or_alias db cache conflicts model_name).1
          = .ok (some best.1) ∧
      best ∈ matchedPairs db (pyStrip model_name) ∧
      ∀ p ∈ matchedPairs db (pyStrip model_name), candLE best p = true := by
  have hres : resolve_global_model_by_name_or_alias db cache conflicts model_name
      = resolveFromDb db cache conflicts (pyStrip model_name) := by
    unfold resolve_global_model_by_name_or_alias
    simp [hn, hc]
  have hperm : List.Perm
      (List.insertionSort candRel (matchedPairs db (pyStrip model_name)))
      (matchedPairs db (pyStrip model_name)) :=
    List.perm_insertionSort _ _
  cases hs : List.insertionSort candRel (matchedPairs db (pyStrip model_name)) with
  | nil =>
    rw [hs] at hperm
    exact absurd hperm.symm.eq_nil hm
  | cons best rest =>
    refine ⟨best, ?_, ?_, ?_⟩
    · rw [hres]
      unfold resolveFromDb
      simp only [hs]
    · have hmem : best ∈ List.insertionSort candRel
          (matchedPairs db (pyStrip model_name)) := by
        rw [hs]; exact List.mem_cons_self _ _
      exact hperm.mem_iff.mp hmem
    · intro p hp
      have hsorted := List.sorted_insertionSort candRel
        (matchedPairs db (pyStrip model_name))
      rw [hs] at hsorted
      have hps : p ∈ best :: rest := by
        rw [← hs]; exact hperm.mem_iff.mpr hp
      rcases List.mem_cons.mp hps with hpb | hpr
      · rw [hpb]; exact candLE_refl best
      · exact List.rel_of_sorted_cons hsorted p hpr

/-- C4 witness: the spec's `dup` scenario resolves, via the theorem, to a
rank-and-name-minimal alias candidate; concretely the result is the
GlobalModel named `model-a` (even though the `model-b` row comes first) and
the conflict counter is incremented exactly once. -/
theorem resolve_ranked_deterministic_choice_witness :
    (∃ best : GlobalModel × String,
      (resolve_global_model_by_name_or_alias dbDup [] 0 "dup").1
          = .ok (some best.1) ∧
      best ∈ matchedPairs dbDup "dup" ∧
      ∀ p ∈ matchedPairs dbDup "dup", candLE best p = true) ∧
    (resolve_global_model_by_name_or_alias dbDup [] 0 "dup").1
        = .ok (some (mkGm "ga" "model-a")) ∧
    (resolve_global_model_by_name_or_alias dbDup [] 0 "dup").2.2 = 1 := by
  refine ⟨?_, rfl, rfl⟩
  have hm : matchedPairs dbDup "dup" ≠ [] := by
    rw [show matchedPairs dbDup "dup"
        = [(mkGm "gb" "model-b", "alias"), (mkGm "ga" "model-a", "alias")] from rfl]
    simp
  exact resolve_ranked_deterministic_choice dbDup [] 0 "dup" rfl rfl hm

end Aether
